import Mathlib

/-!
Verification of the asynchronous graphics job engine (`src/include/mega/gfx.h`).

The repository ships only the header: class declarations, member signatures
and their documentation comments. The bodies of `GfxJobQueue::push/pop`,
`GfxProc::loop`, `GfxProc::gendimensionsputfa`, `GfxProc::savefa`,
`ProviderAccessor::getCopy/set` and the static dimension catalogs live in a
translation unit that is not part of the sources. Accordingly, the
definitions below embed the data model straight from the header and model
every missing body from the specification, marked `Modelled from the spec:`.
-/

namespace Gfx

/-- Embeds `IGfxProvider::Dimension` (gfx.h lines 74-83): a width/height pair
of C++ `int`s. The catalog values are far below `2^31`, so plain `Int`
without wrap-around is faithful. -/
structure Dimension where
  width : Int
  height : Int
deriving DecidableEq, Repr

/-- Area of a dimension, `width * height`, the sort key the spec prescribes
for the descending dispatch order. -/
def area (d : Dimension) : Int := d.width * d.height

/-- Embeds the attribute-type enums of gfx.h lines 191-192:
`meta_t { THUMBNAIL, PREVIEW }` and `avatar_t { AVATAR250X250 }`. -/
inductive fatype where
  | THUMBNAIL
  | PREVIEW
  | AVATAR250X250
deriving DecidableEq, Repr

/-- Modelled from the spec: `LocalPath` (a platform path type outside src/)
is reduced to the file name and its extension component, the only parts the
engine inspects for format validation. -/
structure LocalPath where
  name : String
  ext : String
deriving DecidableEq, Repr

/-- Embeds `NodeOrUploadHandle` (gfx.h line 49): a tagged target that is
either a committed remote node reference or a pending-upload reference. -/
inductive NodeOrUploadHandle where
  | node (h : Nat)
  | upload (h : Nat)
deriving DecidableEq, Repr

/-- Embeds `GfxJob` (gfx.h lines 37-56): path, requested attribute types,
target handle, key bytes, and the resulting images, one slot per requested
dimension. -/
structure GfxJob where
  localfilename : LocalPath
  imagetypes : List fatype
  h : NodeOrUploadHandle
  key : List Nat
  images : List String
deriving DecidableEq, Repr

namespace GfxJobQueue

/-- Embeds the `GfxJobQueue` state (gfx.h line 61): the `std::deque` of
queued jobs, head first. The mutex only serializes access and has no
sequential content. -/
abbrev Queue := List GfxJob

/-- Embeds the empty queue built by `GfxJobQueue::GfxJobQueue()`. -/
def empty : Queue := []

/-- Modelled from the spec: `GfxJobQueue::push` (body not under src/)
appends the job at the tail. -/
def push (q : Queue) (job : GfxJob) : Queue := q ++ [job]

/-- Modelled from the spec: `GfxJobQueue::pop` (body not under src/) removes
and returns the head job, or `none` (the null pointer) on an empty queue,
never blocking. -/
def pop (q : Queue) : Option GfxJob × Queue :=
  match q with
  | [] => (none, [])
  | j :: rest => (some j, rest)

/-- A client-side operation on one job queue: a push of a given job, or a
pop. Used to state the FIFO property over arbitrary interleavings. -/
inductive QOp where
  | push (job : GfxJob)
  | pop

/-- Runs a sequence of queue operations, returning the jobs the pops
delivered (in delivery order) and the final queue. -/
def runOps : List QOp → Queue → List GfxJob × Queue
  | [], q => ([], q)
  | QOp.push j :: rest, q => runOps rest (push q j)
  | QOp.pop :: rest, q =>
      match pop q with
      | (none, q') => runOps rest q'
      | (some j, q') =>
          let r := runOps rest q'
          (j :: r.1, r.2)

/-- The jobs a sequence of operations pushes, in push order. -/
def pushedJobs : List QOp → List GfxJob
  | [] => []
  | QOp.push j :: rest => j :: pushedJobs rest
  | QOp.pop :: rest => pushedJobs rest

end GfxJobQueue

/-- Encoding policy a generation call runs under: whether the JPEG EXIF
rotation tag is honored and the JPEG save quality. -/
structure EncodeSettings where
  respectExifRotation : Bool
  jpegQuality : Nat
deriving DecidableEq, Repr

/-- Embeds the policy documented at gfx.h lines 186-187: "must respect JPEG
EXIF rotation tag", "must save at 85% quality". -/
def engineEncodeSettings : EncodeSettings := { respectExifRotation := true, jpegQuality := 85 }

/-- Modelled from the spec: `IGfxProvider` (gfx.h lines 71-101) reduced to
its behavioral capabilities. Per-dimension generation is a pure function of
the encode settings the engine mandates, the path and the dimension,
returning `none` on failure — the spec's backend makes one attempt per
dimension per job. `supportedformats` returns the extension list, `none`
standing for the C++ `NULL` meaning "no pre-filtering". -/
structure IGfxProvider where
  generateOne : EncodeSettings → LocalPath → Dimension → Option String
  supportedformats : Option (List String)
  supportedvideoformats : Option (List String)

namespace IGfxProvider

/-- Modelled from the spec: `IGfxLocalProvider::generateImages` (body not
under src/). The header contract (gfx.h lines 87-89) requires one result
per requested dimension, with an empty string in a slot on that
dimension's failure. -/
def generateImages (p : IGfxProvider) (localfilepath : LocalPath)
    (dimensions : List Dimension) : List String :=
  dimensions.map (fun d => (p.generateOne engineEncodeSettings localfilepath d).getD "")

/-- Modelled from the spec: the submission-time format pre-filter checks
the file extension against the provider's supported-format list; a `NULL`
list means every input passes. -/
def isSupportedFormat (p : IGfxProvider) (path : LocalPath) : Bool :=
  match p.supportedformats with
  | none => true
  | some exts => exts.contains path.ext

end IGfxProvider

/-- Inserts a dimension into a list kept in descending-area order. -/
def insertDimDesc (d : Dimension) : List Dimension → List Dimension
  | [] => [d]
  | e :: rest =>
      if area e ≥ area d then e :: insertDimDesc d rest else d :: e :: rest

/-- Modelled from the spec: the engine sorts every resolved dimension list
in descending order of area before handing it to the backend (gfx.h line
166 documents the high-to-low contract of `GfxProc::generateImages`; the
sorting body is not under src/). Insertion sort on the area key. -/
def sortDimsDesc : List Dimension → List Dimension
  | [] => []
  | d :: rest => insertDimDesc d (sortDimsDesc rest)

namespace GfxProc

/-- Modelled from the spec: the per-attribute-type catalog entry. The
catalog values are defined in the missing translation unit; the header
documents the two shapes (gfx.h lines 197-198): `w*0` is the largest
centered square crop, `w*h` a bounding-box fit. The thumbnail is the
square crop producing the documented 120*120 pixel result, the preview a
larger bounding box, the avatar the 250-pixel square crop named by
`AVATAR250X250`. -/
def dimensionOfType : fatype → Dimension
  | fatype.THUMBNAIL => { width := 120, height := 0 }
  | fatype.PREVIEW => { width := 1000, height := 1000 }
  | fatype.AVATAR250X250 => { width := 250, height := 0 }

/-- Embeds `GfxProc::DIMENSIONS` (gfx.h line 199), indexed by `meta_t`. -/
def DIMENSIONS : List Dimension :=
  [dimensionOfType fatype.THUMBNAIL, dimensionOfType fatype.PREVIEW]

/-- Embeds `GfxProc::DIMENSIONS_AVATAR` (gfx.h line 200), indexed by
`avatar_t`. -/
def DIMENSIONS_AVATAR : List Dimension :=
  [dimensionOfType fatype.AVATAR250X250]

/-- Modelled from the spec: `GfxProc::getJobDimensions` (body not under
src/) resolves the job's requested attribute types to their catalog
dimensions, in the caller-specified order. -/
def getJobDimensions (job : GfxJob) : List Dimension :=
  job.imagetypes.map dimensionOfType

/-- Modelled from the spec: the dimension list the worker hands to the
backend call — the engine sorts the resolved list strictly descending by
area before dispatch, whatever order the caller specified. -/
def dispatchedDimensions (dims : List Dimension) : List Dimension :=
  sortDimsDesc dims

/-- Modelled from the spec: `GfxProc::generateOneImage` (body not under
src/): invokes the snapshot's generation for one dimension under the
engine's fixed encode settings, absorbing failure into an empty buffer. -/
def generateOneImage (snapshot : IGfxProvider) (localfilepath : LocalPath)
    (dimension : Dimension) : String :=
  (snapshot.generateOne engineEncodeSettings localfilepath dimension).getD ""

/-- Modelled from the spec: the worker's processing of one dequeued job.
The backend is invoked once per dimension in descending-resolution order,
but each result is written into the slot matching the caller-specified
order; generation being a pure function of the dimension, the realigned
result list is the per-dimension generation mapped over the caller order. -/
def processJob (snapshot : IGfxProvider) (job : GfxJob) : GfxJob :=
  { job with images :=
      (getJobDimensions job).map (fun d => generateOneImage snapshot job.localfilename d) }

/-- Embeds `GfxProc::ProviderAccessor` (gfx.h lines 146-157): the slot
holding the shared reference to the installed provider. -/
structure ProviderAccessor where
  mProvider : IGfxProvider

/-- Modelled from the spec: `ProviderAccessor::getCopy` (body not under
src/; declared `const`, gfx.h line 151) returns the installed shared
reference. Explicit state passing: the returned snapshot together with the
post-state of the slot. -/
def ProviderAccessor.getCopy (a : ProviderAccessor) : IGfxProvider × ProviderAccessor :=
  (a.mProvider, a)

/-- Modelled from the spec: `ProviderAccessor::set` (body not under src/)
installs a new provider reference in the slot, replacing the previous one. -/
def ProviderAccessor.set (_a : ProviderAccessor) (provider : IGfxProvider) : ProviderAccessor :=
  { mProvider := provider }

/-- The sequential state of one `GfxProc` instance: the two job queues, the
provider slot and the lazily-started worker flag (gfx.h lines 137-159). -/
structure State where
  requests : GfxJobQueue.Queue
  responses : GfxJobQueue.Queue
  mGfxProvider : ProviderAccessor
  threadstarted : Bool

/-- Embeds `GfxProc::GfxProc` (gfx.h line 216): a fresh engine with empty
queues, the initial provider installed, worker not yet started. -/
def init (provider : IGfxProvider) : State :=
  { requests := GfxJobQueue.empty
    responses := GfxJobQueue.empty
    mGfxProvider := { mProvider := provider }
    threadstarted := false }

/-- Embeds `GfxProc::setGfxProvider` (gfx.h line 212): delegates to the
slot's `set`. -/
def setGfxProvider (s : State) (provider : IGfxProvider) : State :=
  { s with mGfxProvider := s.mGfxProvider.set provider }

/-- Modelled from the spec: one drain step of `GfxProc::loop` (body not
under src/): pop one request; if none, idle; otherwise capture one provider
snapshot, process every dimension against that snapshot, and push the
finished job to the response queue. -/
def loopStep (s : State) : State :=
  match GfxJobQueue.pop s.requests with
  | (none, q) => { s with requests := q }
  | (some job, q) =>
      let snapshot := (s.mGfxProvider.getCopy).1
      { s with
          requests := q
          responses := GfxJobQueue.push s.responses (processJob snapshot job) }

/-- Modelled from the spec: `GfxProc::gendimensionsputfa` (body not under
src/): validates the extension against a snapshot of the provider's
supported-format list; on unsupported format or structurally invalid input
(no attribute requested) it fails synchronously, creating no job and
touching neither queue; otherwise it builds the job, enqueues it, lazily
starts the worker and returns the number of dimensions queued. -/
def gendimensionsputfa (s : State) (path : LocalPath) (h : NodeOrUploadHandle)
    (key : List Nat) (missingattr : List fatype) : Nat × State :=
  if missingattr.isEmpty || !((s.mGfxProvider.getCopy).1.isSupportedFormat path) then
    (0, s)
  else
    let job : GfxJob :=
      { localfilename := path, imagetypes := missingattr, h := h, key := key, images := [] }
    (missingattr.length,
      { s with requests := GfxJobQueue.push s.requests job, threadstarted := true })

/-- Modelled from the spec: `GfxProc::savefa` (body not under src/): the
synchronous path captures a provider snapshot and generates the single
dimension through the same per-dimension generation under the same fixed
encode settings, writing the bytes to the destination file; returns the
success flag and the bytes written. -/
def savefa (s : State) (source : LocalPath) (dimension : Dimension) : Bool × String :=
  let snapshot := (s.mGfxProvider.getCopy).1
  let bytes := (snapshot.generateOne engineEncodeSettings source dimension).getD ""
  (!(bytes == ""), bytes)

/-- Modelled from the spec: `GfxProc::checkevents` (body not under src/):
non-blockingly drains every completed job from the response queue on the
client's thread, returning the count processed. -/
def checkevents (s : State) : Nat × State :=
  (s.responses.length, { s with responses := GfxJobQueue.empty })

end GfxProc

namespace WorkerMachine

/-!
A small-step interleaving model of one `GfxProc` instance, for the
concurrency-sensitive properties. Providers are identified by `Nat` ids (the
identity of the shared reference held in the slot), jobs by the `Nat` id
assigned at submission. The machine has exactly one worker context — the
single thread started by `GfxProc::startProcessingThread` (gfx.h lines
140-141, 204-205) — whose program position is the `Phase`. Producer steps
(`submit`, `setProvider`) may interleave freely with worker steps; each
backend invocation is split into a begin and an end step so that overlap
would be representable if a second caller existed.
-/

/-- The worker's program position: parked idle, or processing one dequeued
job with the snapshot captured at its dequeue, the number of dimensions
still to generate, and whether a backend call is currently open. -/
inductive Phase where
  | idle
  | processing (jobId : Nat) (snapshotId : Nat) (pending : Nat) (inCall : Bool)
deriving DecidableEq, Repr

/-- Global state of the interleaving model: the provider slot, the request
queue of job ids, the worker phase, the submission counter, the audit logs
of dequeue snapshots and backend calls, the number of backend invocations
currently in flight, and the response queue. -/
structure MState where
  slot : Nat
  requests : List Nat
  phase : Phase
  nextJobId : Nat
  dequeueLog : List (Nat × Nat)
  callLog : List (Nat × Nat)
  inFlight : Nat
  responses : List Nat
deriving DecidableEq, Repr

/-- A fresh engine instance holding the initial provider. -/
def minit (provider : Nat) : MState :=
  { slot := provider, requests := [], phase := Phase.idle, nextJobId := 0,
    dequeueLog := [], callLog := [], inFlight := 0, responses := [] }

/-- One interleaved step of the producer or the worker. `dequeue` captures
the snapshot from the slot exactly once; `callBegin` and `callEnd` use only
the snapshot stored in the phase and never re-read the slot. -/
inductive Step : MState → MState → Prop where
  | submit (s : MState) :
      Step s { s with requests := s.requests ++ [s.nextJobId],
                      nextJobId := s.nextJobId + 1 }
  | setProvider (s : MState) (p : Nat) :
      Step s { s with slot := p }
  | dequeue (s : MState) (j : Nat) (rest : List Nat) (dims : Nat)
      (hphase : s.phase = Phase.idle) (hq : s.requests = j :: rest) :
      Step s { s with requests := rest,
                      phase := Phase.processing j s.slot dims false,
                      dequeueLog := s.dequeueLog ++ [(j, s.slot)] }
  | callBegin (s : MState) (j snap n : Nat)
      (hphase : s.phase = Phase.processing j snap (n + 1) false) :
      Step s { s with phase := Phase.processing j snap (n + 1) true,
                      callLog := s.callLog ++ [(j, snap)],
                      inFlight := s.inFlight + 1 }
  | callEnd (s : MState) (j snap n : Nat)
      (hphase : s.phase = Phase.processing j snap (n + 1) true) :
      Step s { s with phase := Phase.processing j snap n false,
                      inFlight := s.inFlight - 1 }
  | finish (s : MState) (j snap : Nat)
      (hphase : s.phase = Phase.processing j snap 0 false) :
      Step s { s with phase := Phase.idle,
                      responses := s.responses ++ [j] }

/-- The states one engine instance can reach from construction. -/
inductive Reachable (p0 : Nat) : MState → Prop where
  | init : Reachable p0 (minit p0)
  | step {s t : MState} : Reachable p0 s → Step s t → Reachable p0 t

/-- The job ids recorded in a log. -/
def logKeys (l : List (Nat × Nat)) : List Nat := l.map Prod.fst

/-- The inductive invariant of the machine: the in-flight count is fixed by
the worker phase; every backend call was made with the provider recorded at
its job's dequeue; each job is dequeued at most once; queued jobs are
pending (not yet dequeued), distinct, and below the id counter; and the job
under processing carries exactly its dequeue snapshot. -/
def Inv (s : MState) : Prop :=
  (s.inFlight = match s.phase with
               | Phase.processing _ _ _ true => 1
               | _ => 0) ∧
  (∀ e ∈ s.callLog, e ∈ s.dequeueLog) ∧
  (logKeys s.dequeueLog).Nodup ∧
  (∀ j ∈ s.requests, j ∉ logKeys s.dequeueLog) ∧
  s.requests.Nodup ∧
  (∀ j ∈ s.requests, j < s.nextJobId) ∧
  (∀ e ∈ s.dequeueLog, e.1 < s.nextJobId) ∧
  (∀ j snap n b, s.phase = Phase.processing j snap n b → (j, snap) ∈ s.dequeueLog)

end WorkerMachine

/-! ## Concrete instances used to exercise the theorems -/

/-- A fake backend whose every generation call fails, supporting jpg and
png inputs. -/
def stubFailingProvider : IGfxProvider :=
  { generateOne := fun _ _ _ => none
    supportedformats := some ["jpg", "png"]
    supportedvideoformats := none }

/-- A fake backend that succeeds only on the preview bounding box,
returning fixed bytes, as in the spec's partial-failure scenario. -/
def stubPreviewOnlyProvider : IGfxProvider :=
  { generateOne := fun _ _ d =>
      if d = GfxProc.dimensionOfType fatype.PREVIEW then some "previewBytes" else none
    supportedformats := some ["jpg"]
    supportedvideoformats := none }

/-- A thumbnail-plus-preview submission for a supported image. -/
def sampleJob : GfxJob :=
  { localfilename := { name := "photo.jpg", ext := "jpg" }
    imagetypes := [fatype.THUMBNAIL, fatype.PREVIEW]
    h := NodeOrUploadHandle.upload 11
    key := [1, 2, 3]
    images := [] }

/-- An engine state whose worker is about to process `sampleJob` against
the always-failing backend. -/
def sampleStateFailing : GfxProc.State :=
  { requests := [sampleJob]
    responses := []
    mGfxProvider := { mProvider := stubFailingProvider }
    threadstarted := true }

/-- An engine state whose worker is about to process `sampleJob` against
the preview-only backend. -/
def sampleStatePartial : GfxProc.State :=
  { requests := [sampleJob]
    responses := []
    mGfxProvider := { mProvider := stubPreviewOnlyProvider }
    threadstarted := true }

/-- The machine state reached by: construct with provider 7, submit job 0,
dequeue it (snapshot 7), install provider 9 mid-job, open the backend
call. The open call still uses snapshot 7. -/
def swapTraceState : WorkerMachine.MState :=
  { slot := 9
    requests := []
    phase := WorkerMachine.Phase.processing 0 7 1 true
    nextJobId := 1
    dequeueLog := [(0, 7)]
    callLog := [(0, 7)]
    inFlight := 1
    responses := [] }

/-- The machine state reached by: construct with provider 3, submit job 0,
dequeue it, open the first of its two generation calls. -/
def singleFlightState : WorkerMachine.MState :=
  { slot := 3
    requests := []
    phase := WorkerMachine.Phase.processing 0 3 2 true
    nextJobId := 1
    dequeueLog := [(0, 3)]
    callLog := [(0, 3)]
    inFlight := 1
    responses := [] }

/-! ## Theorems -/

namespace GfxJobQueue

theorem runOps_delivery (ops : List QOp) :
    ∀ q : Queue, (runOps ops q).1 ++ (runOps ops q).2 = q ++ pushedJobs ops := by
  induction ops with
  | nil => intro q; simp [runOps, pushedJobs]
  | cons op rest ih =>
    intro q
    cases op with
    | push j =>
        simp only [runOps, pushedJobs, push]
        rw [ih (q ++ [j])]
        simp
    | pop =>
        cases q with
        | nil =>
            simp only [runOps, pop, pushedJobs]
            exact ih []
        | cons j q' =>
            simp only [runOps, pop, pushedJobs]
            rw [List.cons_append, ih q']
            simp

end GfxJobQueue

theorem insertDimDesc_perm (d : Dimension) (l : List Dimension) :
    List.Perm (insertDimDesc d l) (d :: l) := by
  induction l with
  | nil => rfl
  | cons e rest ih =>
    simp only [insertDimDesc]
    by_cases h : area e ≥ area d
    · rw [if_pos h]
      exact (ih.cons e).trans (List.Perm.swap d e rest)
    · rw [if_neg h]

theorem sortDimsDesc_perm (l : List Dimension) : List.Perm (sortDimsDesc l) l := by
  induction l with
  | nil => rfl
  | cons d rest ih =>
    exact (insertDimDesc_perm d (sortDimsDesc rest)).trans (ih.cons d)

theorem insertDimDesc_pairwise (d : Dimension) (l : List Dimension)
    (hl : l.Pairwise (fun a b => area a ≥ area b)) :
    (insertDimDesc d l).Pairwise (fun a b => area a ≥ area b) := by
  induction l with
  | nil => simp [insertDimDesc]
  | cons e rest ih =>
    rcases List.pairwise_cons.mp hl with ⟨he, hrest⟩
    simp only [insertDimDesc]
    by_cases h : area e ≥ area d
    · rw [if_pos h]
      refine List.pairwise_cons.mpr ⟨?_, ih hrest⟩
      intro x hx
      rcases List.mem_cons.mp ((insertDimDesc_perm d rest).mem_iff.mp hx) with hxd | hxr
      · subst hxd; exact h
      · exact he x hxr
    · rw [if_neg h]
      refine List.pairwise_cons.mpr ⟨?_, hl⟩
      intro x hx
      rcases List.mem_cons.mp hx with hxe | hxr
      · subst hxe; omega
      · exact le_trans (he x hxr) (by omega)

theorem sortDimsDesc_pairwise (l : List Dimension) :
    (sortDimsDesc l).Pairwise (fun a b => area a ≥ area b) := by
  induction l with
  | nil => simp [sortDimsDesc]
  | cons d rest ih => exact insertDimDesc_pairwise d (sortDimsDesc rest) ih

theorem sortDimsDesc_strict (l : List Dimension)
    (hnd : (l.map area).Nodup) :
    (sortDimsDesc l).Pairwise (fun a b => area a > area b) := by
  have hperm : List.Perm ((sortDimsDesc l).map area) (l.map area) :=
    (sortDimsDesc_perm l).map area
  have hnd' : ((sortDimsDesc l).map area).Nodup := hperm.nodup_iff.mpr hnd
  have hne : (sortDimsDesc l).Pairwise (fun a b => area a ≠ area b) :=
    List.pairwise_map.mp hnd'
  have hge := sortDimsDesc_pairwise l
  exact (hge.and hne).imp (fun h => lt_of_le_of_ne h.1 (Ne.symm h.2))

namespace WorkerMachine

theorem inv_init (p0 : Nat) : Inv (minit p0) := by
  refine ⟨rfl, ?_, ?_, ?_, ?_, ?_, ?_, ?_⟩ <;> simp [minit, logKeys]

theorem inv_step {s t : MState} (hs : Inv s) (hstep : Step s t) : Inv t := by
  obtain ⟨hflight, hcall, hnd, hpend, hreqnd, hreqlt, hdeqlt, hproc⟩ := hs
  cases hstep with
  | submit =>
      refine ⟨hflight, hcall, hnd, ?_, ?_, ?_, ?_, hproc⟩
      · intro j hj
        dsimp only at hj ⊢
        rcases List.mem_append.mp hj with hj | hj
        · exact hpend j hj
        · intro hmem
          rcases List.mem_singleton.mp hj with rfl
          rcases List.mem_map.mp hmem with ⟨e, he, hfst⟩
          have := hdeqlt e he
          omega
      · dsimp only
        refine List.nodup_append.mpr ⟨hreqnd, List.nodup_singleton _, ?_⟩
        intro j hj hj'
        rcases List.mem_singleton.mp hj' with rfl
        have := hreqlt _ hj
        omega
      · intro j hj
        dsimp only at hj ⊢
        rcases List.mem_append.mp hj with hj | hj
        · have := hreqlt j hj; omega
        · rcases List.mem_singleton.mp hj with rfl; omega
      · intro e he
        dsimp only at he ⊢
        have := hdeqlt e he; omega
  | setProvider p =>
      exact ⟨hflight, hcall, hnd, hpend, hreqnd, hreqlt, hdeqlt, hproc⟩
  | dequeue j rest dims hphase hq =>
      have hjreq : j ∈ s.requests := by rw [hq]; exact List.mem_cons_self j rest
      have hrest : ∀ x ∈ rest, x ∈ s.requests := by
        intro x hx; rw [hq]; exact List.mem_cons_of_mem j hx
      have hndreq : ¬ j ∈ rest ∧ rest.Nodup := by
        rw [hq] at hreqnd
        exact List.nodup_cons.mp hreqnd
      refine ⟨?_, ?_, ?_, ?_, hndreq.2, ?_, ?_, ?_⟩
      · dsimp only
        rw [hflight, hphase]
      · intro e he
        dsimp only at he ⊢
        exact List.mem_append.mpr (Or.inl (hcall e he))
      · simp only [logKeys, List.map_append, List.map_cons, List.map_nil]
        refine List.nodup_append.mpr ⟨hnd, List.nodup_singleton _, ?_⟩
        intro x hx hx'
        have hxj : x = j := List.mem_singleton.mp hx'
        rw [hxj] at hx
        exact hpend j hjreq hx
      · intro x hx hmem
        dsimp only at hx
        simp only [logKeys, List.map_append] at hmem
        rcases List.mem_append.mp hmem with hmem | hmem
        · exact hpend x (hrest x hx) hmem
        · rcases List.mem_singleton.mp hmem with h
          exact hndreq.1 (by simpa [h] using hx)
      · intro x hx
        dsimp only at hx ⊢
        exact hreqlt x (hrest x hx)
      · intro e he
        dsimp only at he ⊢
        rcases List.mem_append.mp he with he | he
        · exact hdeqlt e he
        · rcases List.mem_singleton.mp he with rfl
          exact hreqlt j hjreq
      · intro j' snap' n' b' hph
        dsimp only at hph ⊢
        injection hph with h1 h2 h3 h4
        subst h1; subst h2
        exact List.mem_append.mpr (Or.inr (List.mem_singleton.mpr rfl))
  | callBegin j snap n hphase =>
      have hjs : (j, snap) ∈ s.dequeueLog := hproc j snap (n + 1) false hphase
      refine ⟨?_, ?_, hnd, hpend, hreqnd, hreqlt, hdeqlt, ?_⟩
      · dsimp only
        rw [hflight, hphase]
      · intro e he
        dsimp only at he ⊢
        rcases List.mem_append.mp he with he | he
        · exact hcall e he
        · rcases List.mem_singleton.mp he with rfl; exact hjs
      · intro j' snap' n' b' hph
        dsimp only at hph ⊢
        injection hph with h1 h2 h3 h4
        subst h1; subst h2
        exact hjs
  | callEnd j snap n hphase =>
      refine ⟨?_, hcall, hnd, hpend, hreqnd, hreqlt, hdeqlt, ?_⟩
      · dsimp only
        rw [hflight, hphase]
        rfl
      · intro j' snap' n' b' hph
        dsimp only at hph ⊢
        injection hph with h1 h2 h3 h4
        subst h1; subst h2
        exact hproc j snap (n + 1) true hphase
  | finish j snap hphase =>
      refine ⟨?_, hcall, hnd, hpend, hreqnd, hreqlt, hdeqlt, ?_⟩
      · dsimp only
        rw [hflight, hphase]
      · intro j' snap' n' b' hph
        dsimp only at hph
        cases hph

theorem inv_reachable {p0 : Nat} {s : MState} (h : Reachable p0 s) : Inv s := by
  induction h with
  | init => exact inv_init p0
  | step _ hstep ih => exact inv_step ih hstep

theorem eq_snd_of_nodup_keys {l : List (Nat × Nat)} (hnd : (logKeys l).Nodup)
    {j p q : Nat} (hp : (j, p) ∈ l) (hq : (j, q) ∈ l) : p = q := by
  induction l with
  | nil => cases hp
  | cons e rest ih =>
    simp only [logKeys, List.map_cons, List.nodup_cons] at hnd
    rcases List.mem_cons.mp hp with hp1 | hp1 <;>
      rcases List.mem_cons.mp hq with hq1 | hq1
    · exact congrArg Prod.snd (hp1.trans hq1.symm)
    · exfalso
      apply hnd.1
      rw [← hp1]
      exact List.mem_map.mpr ⟨(j, q), hq1, rfl⟩
    · exfalso
      apply hnd.1
      rw [← hq1]
      exact List.mem_map.mpr ⟨(j, p), hp1, rfl⟩
    · exact ih hnd.2 hp1 hq1

end WorkerMachine

theorem processJob_images_getD (snapshot : IGfxProvider) (job : GfxJob) (i : Nat)
    (hi : i < (GfxProc.getJobDimensions job).length) :
    (GfxProc.processJob snapshot job).images.getD i "" =
      GfxProc.generateOneImage snapshot job.localfilename
        ((GfxProc.getJobDimensions job).getD i { width := 0, height := 0 }) := by
  have hlen : i < ((GfxProc.getJobDimensions job).map
      (fun d => GfxProc.generateOneImage snapshot job.localfilename d)).length := by
    simpa using hi
  show ((GfxProc.getJobDimensions job).map
      (fun d => GfxProc.generateOneImage snapshot job.localfilename d)).getD i "" = _
  rw [List.getD_eq_getElem _ _ hlen, List.getElem_map, List.getD_eq_getElem _ _ hi]

theorem loopStep_delivers (s : GfxProc.State) (job : GfxJob) (rest : GfxJobQueue.Queue)
    (hreq : s.requests = job :: rest) :
    (GfxProc.loopStep s).responses =
      GfxJobQueue.push s.responses
        (GfxProc.processJob ((s.mGfxProvider.getCopy).1) job) := by
  unfold GfxProc.loopStep
  rw [hreq]
  rfl

/-- Claim C1: for every accepted submission, the delivered job's result
list has exactly as many slots as the job's resolved dimension list (one
slot per requested dimension, aligned by index), whatever the per-dimension
outcomes — including the all-empty case: any job a worker drain step newly
places on the response queue has as many image slots as resolved
dimensions. -/
theorem claim_C1_result_slots_match_dimensions (s : GfxProc.State) (j : GfxJob)
    (hj : j ∈ (GfxProc.loopStep s).responses) :
    j ∈ s.responses ∨ j.images.length = (GfxProc.getJobDimensions j).length := by
  rcases hpop : GfxJobQueue.pop s.requests with ⟨o, q⟩
  cases o with
  | none =>
      unfold GfxProc.loopStep at hj
      rw [hpop] at hj
      exact Or.inl hj
  | some job =>
      unfold GfxProc.loopStep at hj
      rw [hpop] at hj
      dsimp only [GfxJobQueue.push] at hj
      rcases List.mem_append.mp hj with hj | hj
      · exact Or.inl hj
      · rcases List.mem_singleton.mp hj with rfl
        refine Or.inr ?_
        simp [GfxProc.processJob, GfxProc.getJobDimensions]

/-- Witness for C1: the always-failing backend delivers `sampleJob` with
every slot an empty buffer, and the slot count still equals the resolved
dimension count. -/
theorem claim_C1_witness :
    sampleStateFailing.responses = [] ∧
    (GfxProc.processJob stubFailingProvider sampleJob ∈ sampleStateFailing.responses ∨
      (GfxProc.processJob stubFailingProvider sampleJob).images.length =
        (GfxProc.getJobDimensions (GfxProc.processJob stubFailingProvider sampleJob)).length) :=
  ⟨rfl, claim_C1_result_slots_match_dimensions sampleStateFailing _ (by decide)⟩

/-- Claim C2: the dimension list the engine passes to the backend is the
caller's resolved list re-sorted strictly descending by area (width times
height) before invocation — for any caller-specified order with pairwise
distinct areas, the dispatched list is a permutation of it and strictly
descending. -/
theorem claim_C2_dispatch_sorted_descending (dims : List Dimension)
    (hnd : (dims.map area).Nodup) :
    List.Perm (GfxProc.dispatchedDimensions dims) dims ∧
    (GfxProc.dispatchedDimensions dims).Pairwise (fun a b => area a > area b) :=
  ⟨sortDimsDesc_perm dims, sortDimsDesc_strict dims hnd⟩

/-- Witness for C2: `sampleJob` resolves to the caller-ordered
thumbnail-then-preview list, which is ascending by area; the dispatched
list is a strictly descending permutation of it. -/
theorem claim_C2_witness :
    ((GfxProc.getJobDimensions sampleJob).map area).Nodup ∧
    List.Perm (GfxProc.dispatchedDimensions (GfxProc.getJobDimensions sampleJob))
      (GfxProc.getJobDimensions sampleJob) ∧
    (GfxProc.dispatchedDimensions (GfxProc.getJobDimensions sampleJob)).Pairwise
      (fun a b => area a > area b) :=
  ⟨by decide,
   (claim_C2_dispatch_sorted_descending _ (by decide)).1,
   (claim_C2_dispatch_sorted_descending _ (by decide)).2⟩

/-- Claim C3: every job's execution uses exactly one provider snapshot,
the one captured when the worker dequeued it, and the slot is never
re-read mid-job: in every reachable machine state, every backend call
recorded for a job was made against precisely the provider recorded at
that job's dequeue, regardless of interleaved `setProvider` steps. -/
theorem claim_C3_one_snapshot_per_job (p0 : Nat) (s : WorkerMachine.MState)
    (hreach : WorkerMachine.Reachable p0 s) (j p q : Nat)
    (hcall : (j, p) ∈ s.callLog) (hdeq : (j, q) ∈ s.dequeueLog) : p = q := by
  obtain ⟨-, hcallsub, hnd, -, -, -, -, -⟩ := WorkerMachine.inv_reachable hreach
  exact WorkerMachine.eq_snd_of_nodup_keys hnd (hcallsub _ hcall) hdeq

/-- Witness for C3: in the trace that installs provider 9 after job 0 was
dequeued with snapshot 7, the backend call of job 0 still uses 7. -/
theorem claim_C3_witness :
    (0, 7) ∈ swapTraceState.callLog ∧ (0, 7) ∈ swapTraceState.dequeueLog ∧
      swapTraceState.slot = 9 ∧ 7 = 7 := by
  have h0 : WorkerMachine.Reachable 7 (WorkerMachine.minit 7) :=
    WorkerMachine.Reachable.init
  have h1 := WorkerMachine.Reachable.step h0 (WorkerMachine.Step.submit _)
  have h2 := WorkerMachine.Reachable.step h1 (WorkerMachine.Step.dequeue _ 0 [] 1 rfl rfl)
  have h3 := WorkerMachine.Reachable.step h2 (WorkerMachine.Step.setProvider _ 9)
  have h4 := WorkerMachine.Reachable.step h3 (WorkerMachine.Step.callBegin _ 0 7 0 rfl)
  exact ⟨by decide, by decide, rfl,
    claim_C3_one_snapshot_per_job 7 swapTraceState h4 0 7 7 (by decide) (by decide)⟩

/-- Claim C4: if submission-time validation fails — the extension is
unsupported by the provider snapshot, or the input is structurally invalid
(no attribute requested) — the asynchronous entry point returns the error
count synchronously and leaves the whole engine state unchanged: no job
created, neither queue mutated. -/
theorem claim_C4_rejected_submission_leaves_state (s : GfxProc.State)
    (path : LocalPath) (h : NodeOrUploadHandle) (key : List Nat)
    (missingattr : List fatype)
    (hrej : missingattr = [] ∨
      ((s.mGfxProvider.getCopy).1).isSupportedFormat path = false) :
    GfxProc.gendimensionsputfa s path h key missingattr = (0, s) := by
  unfold GfxProc.gendimensionsputfa
  rcases hrej with hrej | hrej
  · subst hrej
    rfl
  · rw [hrej]
    simp

/-- Witness for C4: submitting an mp4 against the jpg/png-only backend is
rejected with the engine state intact. -/
theorem claim_C4_witness :
    ((sampleStateFailing.mGfxProvider.getCopy).1).isSupportedFormat
        { name := "clip.mp4", ext := "mp4" } = false ∧
    GfxProc.gendimensionsputfa sampleStateFailing { name := "clip.mp4", ext := "mp4" }
        (NodeOrUploadHandle.node 5) [9] [fatype.THUMBNAIL, fatype.PREVIEW] =
      (0, sampleStateFailing) :=
  ⟨by decide,
   claim_C4_rejected_submission_leaves_state sampleStateFailing _ _ _ _
     (Or.inr (by decide))⟩

/-- Claim C5: a per-dimension backend failure is recorded as an empty
buffer in that dimension's slot only: the job is still delivered to the
response queue by the worker step, and each slot carries exactly its own
dimension's generation result, so a failing dimension never disturbs the
others nor aborts the job. -/
theorem claim_C5_per_dimension_failure_is_local (s : GfxProc.State) (job : GfxJob)
    (rest : GfxJobQueue.Queue) (hreq : s.requests = job :: rest) (i : Nat)
    (hi : i < (GfxProc.getJobDimensions job).length) :
    (GfxProc.loopStep s).responses =
      GfxJobQueue.push s.responses
        (GfxProc.processJob ((s.mGfxProvider.getCopy).1) job) ∧
    (GfxProc.processJob ((s.mGfxProvider.getCopy).1) job).images.getD i "" =
      ((((s.mGfxProvider.getCopy).1)).generateOne engineEncodeSettings
          job.localfilename
          ((GfxProc.getJobDimensions job).getD i { width := 0, height := 0 })).getD "" := by
  refine ⟨loopStep_delivers s job rest hreq, ?_⟩
  rw [processJob_images_getD _ _ _ hi]
  rfl

/-- Witness for C5: the preview-only backend produces the spec scenario
result: the job is delivered with slot 0 empty (thumbnail failed) and slot
1 populated with the preview bytes. -/
theorem claim_C5_witness :
    (GfxProc.loopStep sampleStatePartial).responses =
      GfxJobQueue.push sampleStatePartial.responses
        (GfxProc.processJob ((sampleStatePartial.mGfxProvider.getCopy).1) sampleJob) ∧
    (GfxProc.processJob ((sampleStatePartial.mGfxProvider.getCopy).1) sampleJob).images.getD 0 "" = "" ∧
    (GfxProc.processJob ((sampleStatePartial.mGfxProvider.getCopy).1) sampleJob).images.getD 1 "" = "previewBytes" :=
  ⟨(claim_C5_per_dimension_failure_is_local sampleStatePartial sampleJob [] rfl 0
      (by decide)).1,
   (claim_C5_per_dimension_failure_is_local sampleStatePartial sampleJob [] rfl 0
      (by decide)).2,
   (claim_C5_per_dimension_failure_is_local sampleStatePartial sampleJob [] rfl 1
      (by decide)).2⟩

/-- Claim C6: the synchronous generation path applies the identical
EXIF-orientation correction and the identical fixed 85% JPEG quality as
the asynchronous worker path, so for the same input path and dimension the
bytes written by `savefa` equal the bytes in the corresponding slot of the
asynchronously processed job. -/
theorem claim_C6_sync_async_identical (s : GfxProc.State) (job : GfxJob) (i : Nat)
    (hi : i < (GfxProc.getJobDimensions job).length) :
    engineEncodeSettings.respectExifRotation = true ∧
    engineEncodeSettings.jpegQuality = 85 ∧
    (GfxProc.savefa s job.localfilename
        ((GfxProc.getJobDimensions job).getD i { width := 0, height := 0 })).2 =
      (GfxProc.processJob ((s.mGfxProvider.getCopy).1) job).images.getD i "" := by
  refine ⟨rfl, rfl, ?_⟩
  rw [processJob_images_getD _ _ _ hi]
  rfl

/-- Witness for C6: the bytes `savefa` writes for the preview dimension of
`sampleJob` equal the preview slot of the asynchronously delivered job. -/
theorem claim_C6_witness :
    (GfxProc.savefa sampleStatePartial sampleJob.localfilename
        ((GfxProc.getJobDimensions sampleJob).getD 1 { width := 0, height := 0 })).2 =
      (GfxProc.processJob ((sampleStatePartial.mGfxProvider.getCopy).1) sampleJob).images.getD 1 "" :=
  (claim_C6_sync_async_identical sampleStatePartial sampleJob 1 (by decide)).2.2

/-- Claim C7: each job queue is strictly FIFO: starting from the empty
queue, for every sequence of pushes with interleaved pops, the sequence of
jobs the pops deliver followed by the jobs still queued is exactly the
sequence of pushed jobs in push order — no priority, no reordering. -/
theorem claim_C7_strict_fifo (ops : List GfxJobQueue.QOp) :
    (GfxJobQueue.runOps ops GfxJobQueue.empty).1 ++
        (GfxJobQueue.runOps ops GfxJobQueue.empty).2 =
      GfxJobQueue.pushedJobs ops := by
  simpa using GfxJobQueue.runOps_delivery ops GfxJobQueue.empty

/-- Claim C8: queue operations never fail: pop on the empty queue returns
the null-job sentinel with the queue still empty, pop always returns a
consistent decomposition of the queue (delivered head plus remainder), and
pop after a push always finds a job. -/
theorem claim_C8_pop_total_and_consistent :
    GfxJobQueue.pop GfxJobQueue.empty = (none, GfxJobQueue.empty) ∧
    (∀ q : GfxJobQueue.Queue,
      ((GfxJobQueue.pop q).1).toList ++ (GfxJobQueue.pop q).2 = q) ∧
    (∀ (q : GfxJobQueue.Queue) (j : GfxJob),
      ((GfxJobQueue.pop (GfxJobQueue.push q j)).1).isSome = true) := by
  refine ⟨rfl, ?_, ?_⟩
  · intro q
    cases q <;> simp [GfxJobQueue.pop]
  · intro q j
    cases q <;> simp [GfxJobQueue.pop, GfxJobQueue.push]

/-- Claim C9: across one engine instance's lifetime at most one backend
invocation is in flight at any time: every reachable machine state has an
in-flight count of at most one. -/
theorem claim_C9_single_backend_invocation (p0 : Nat) (s : WorkerMachine.MState)
    (hreach : WorkerMachine.Reachable p0 s) : s.inFlight ≤ 1 := by
  obtain ⟨hflight, -⟩ := WorkerMachine.inv_reachable hreach
  rw [hflight]
  split <;> omega

/-- Witness for C9: the reachable state with an open backend call has
in-flight count one. -/
theorem claim_C9_witness : singleFlightState.inFlight ≤ 1 := by
  have h0 : WorkerMachine.Reachable 3 (WorkerMachine.minit 3) :=
    WorkerMachine.Reachable.init
  have h1 := WorkerMachine.Reachable.step h0 (WorkerMachine.Step.submit _)
  have h2 := WorkerMachine.Reachable.step h1 (WorkerMachine.Step.dequeue _ 0 [] 2 rfl rfl)
  have h3 := WorkerMachine.Reachable.step h2 (WorkerMachine.Step.callBegin _ 0 3 1 rfl)
  exact claim_C9_single_backend_invocation 3 singleFlightState h3

/-- Claim C10: reading a provider snapshot is effect-free on the slot: for
every slot state, `getCopy` leaves the installed provider unchanged, and
two consecutive `getCopy` calls with no intervening `set` return the same
provider. -/
theorem claim_C10_getCopy_effect_free (a : GfxProc.ProviderAccessor) :
    (GfxProc.ProviderAccessor.getCopy a).2 = a ∧
    (GfxProc.ProviderAccessor.getCopy ((GfxProc.ProviderAccessor.getCopy a).2)).1 =
      (GfxProc.ProviderAccessor.getCopy a).1 :=
  ⟨rfl, rfl⟩

end Gfx
